import Mathlib

/-!
Shallow embedding of the KenobiDB document store (patx/kenobi).

The repository contains several evolutions of the same engine:
  * `kenobi.py`            — the flat store (single implicit partition);
  * `.features_sandbox/col.py`    — the collection-tagged variant;
  * `.features_sandbox/tables.py` — the named-table variant.

Documents are JSON objects serialized with `json.dumps` and stored in a
SQLite table `documents(id INTEGER PRIMARY KEY AUTOINCREMENT, data TEXT)`.
We model a JSON value as `Json`, a database as the list of stored
documents in ascending `id` (insertion) order, and each operation as the
function the corresponding SQL statement denotes on that list.
-/

namespace Kenobi

/-- JSON values (the image of `json.dumps` on the Python values the store
accepts).  Objects are ordered association lists, matching Python dicts'
insertion order and the deterministic serialization `json.dumps` performs. -/
inductive Json where
  | null : Json
  | bool : Bool → Json
  | num : Int → Json
  | str : String → Json
  | arr : List Json → Json
  | obj : List (String × Json) → Json

mutual

/-- Decidable equality on JSON values (structural; objects compare as
ordered association lists, matching text equality of the serialized
documents SQLite stores). -/
def Json.decEq : (a b : Json) → Decidable (a = b)
  | .null, .null => isTrue rfl
  | .null, .bool _ => isFalse (fun h => Json.noConfusion h)
  | .null, .num _ => isFalse (fun h => Json.noConfusion h)
  | .null, .str _ => isFalse (fun h => Json.noConfusion h)
  | .null, .arr _ => isFalse (fun h => Json.noConfusion h)
  | .null, .obj _ => isFalse (fun h => Json.noConfusion h)
  | .bool _, .null => isFalse (fun h => Json.noConfusion h)
  | .bool a, .bool b =>
      if h : a = b then isTrue (by rw [h])
      else isFalse (by intro hab; injection hab; contradiction)
  | .bool _, .num _ => isFalse (fun h => Json.noConfusion h)
  | .bool _, .str _ => isFalse (fun h => Json.noConfusion h)
  | .bool _, .arr _ => isFalse (fun h => Json.noConfusion h)
  | .bool _, .obj _ => isFalse (fun h => Json.noConfusion h)
  | .num _, .null => isFalse (fun h => Json.noConfusion h)
  | .num _, .bool _ => isFalse (fun h => Json.noConfusion h)
  | .num a, .num b =>
      if h : a = b then isTrue (by rw [h])
      else isFalse (by intro hab; injection hab; contradiction)
  | .num _, .str _ => isFalse (fun h => Json.noConfusion h)
  | .num _, .arr _ => isFalse (fun h => Json.noConfusion h)
  | .num _, .obj _ => isFalse (fun h => Json.noConfusion h)
  | .str _, .null => isFalse (fun h => Json.noConfusion h)
  | .str _, .bool _ => isFalse (fun h => Json.noConfusion h)
  | .str _, .num _ => isFalse (fun h => Json.noConfusion h)
  | .str a, .str b =>
      if h : a = b then isTrue (by rw [h])
      else isFalse (by intro hab; injection hab; contradiction)
  | .str _, .arr _ => isFalse (fun h => Json.noConfusion h)
  | .str _, .obj _ => isFalse (fun h => Json.noConfusion h)
  | .arr _, .null => isFalse (fun h => Json.noConfusion h)
  | .arr _, .bool _ => isFalse (fun h => Json.noConfusion h)
  | .arr _, .num _ => isFalse (fun h => Json.noConfusion h)
  | .arr _, .str _ => isFalse (fun h => Json.noConfusion h)
  | .arr as, .arr bs =>
      match Json.decEqL as bs with
      | isTrue h => isTrue (by rw [h])
      | isFalse h => isFalse (by intro hab; injection hab; contradiction)
  | .arr _, .obj _ => isFalse (fun h => Json.noConfusion h)
  | .obj _, .null => isFalse (fun h => Json.noConfusion h)
  | .obj _, .bool _ => isFalse (fun h => Json.noConfusion h)
  | .obj _, .num _ => isFalse (fun h => Json.noConfusion h)
  | .obj _, .str _ => isFalse (fun h => Json.noConfusion h)
  | .obj _, .arr _ => isFalse (fun h => Json.noConfusion h)
  | .obj as, .obj bs =>
      match Json.decEqF as bs with
      | isTrue h => isTrue (by rw [h])
      | isFalse h => isFalse (by intro hab; injection hab; contradiction)

/-- Decidable equality on lists of JSON values. -/
def Json.decEqL : (as bs : List Json) → Decidable (as = bs)
  | [], [] => isTrue rfl
  | [], _ :: _ => isFalse (fun h => List.noConfusion h)
  | _ :: _, [] => isFalse (fun h => List.noConfusion h)
  | a :: as, b :: bs =>
      match Json.decEq a b with
      | isFalse h => isFalse (by intro hab; injection hab; contradiction)
      | isTrue h1 =>
        match Json.decEqL as bs with
        | isTrue h2 => isTrue (by rw [h1, h2])
        | isFalse h => isFalse (by intro hab; injection hab; contradiction)

/-- Decidable equality on JSON object field lists. -/
def Json.decEqF : (as bs : List (String × Json)) → Decidable (as = bs)
  | [], [] => isTrue rfl
  | [], _ :: _ => isFalse (fun h => List.noConfusion h)
  | _ :: _, [] => isFalse (fun h => List.noConfusion h)
  | (k, v) :: as, (l, w) :: bs =>
      if hk : k = l then
        match Json.decEq v w with
        | isFalse h => isFalse (by intro hab; injection hab with h1 h2; injection h1; contradiction)
        | isTrue hv =>
          match Json.decEqF as bs with
          | isTrue ht => isTrue (by rw [hk, hv, ht])
          | isFalse h => isFalse (by intro hab; injection hab; contradiction)
      else isFalse (by intro hab; injection hab with h1 h2; injection h1; contradiction)

end

instance : DecidableEq Json := Json.decEq

/-! ## SQLite / JSON1 primitives used by the engine

`json_extract(data, '$.key')` on a top-level field name (the only shape of
path the engine ever builds: every query interpolates or binds the
user-supplied key directly after `'$.'`) returns the value of that field,
or SQL NULL when the field is missing or holds JSON `null`.  A comparison
`x = ?` or `x IN (...)` is false (NULL) whenever either side is SQL NULL;
otherwise SQLite compares the extracted value with the bound parameter,
which matches structural equality of the decoded values (text with text,
integer with integer; distinct storage classes never compare equal). -/

/-- Look up a field in an object's ordered field list (first occurrence;
`json.dumps` of a Python dict never produces duplicate keys). -/
def getField : List (String × Json) → String → Option Json
  | [], _ => none
  | (k, v) :: rest, key => if k = key then some v else getField rest key

/-- Denotation of `json_extract(data, '$.' ++ key)` for a plain top-level
field name: `none` models SQL NULL (missing field or non-object root). -/
def jsonExtract (d : Json) (key : String) : Option Json :=
  match d with
  | .obj fields => getField fields key
  | _ => none

/-- SQL equality between an extracted JSON value and a bound parameter:
false whenever either side is NULL (JSON `null` extracts to SQL NULL, and
a bound Python `None` is SQL NULL), structural equality otherwise. -/
def sqlEq (x v : Json) : Bool :=
  match x, v with
  | .null, _ => false
  | _, .null => false
  | x, v => decide (x = v)

/-- Denotation of the predicate `json_extract(data, '$.' ++ key) = ?`
with `v` bound for `?`. -/
def extractEq (d : Json) (key : String) (v : Json) : Bool :=
  match jsonExtract d key with
  | some x => sqlEq x v
  | none => false

/-- Row values produced by `json_each(data, '$.' ++ key)` applied to the
value at a top-level field: one row per array element, one per object
field value, a single row for a scalar. -/
def jsonEachValues : Json → List Json
  | .arr elems => elems
  | .obj fields => fields.map (fun kv => kv.2)
  | x => [x]

/-- Rows of `json_each(data, '$.' ++ key)`: empty when the path does not
exist in the document. -/
def jsonEachAt (d : Json) (key : String) : List Json :=
  match jsonExtract d key with
  | some j => jsonEachValues j
  | none => []

/-- Denotation of `value IN (?, ?, ...)` with `vs` bound: true iff some
element compares SQL-equal (an empty list is legal in SQLite and the
operator is then false). -/
def sqlIn (x : Json) (vs : List Json) : Bool := vs.any (fun v => sqlEq x v)

/-! ## The flat store (`kenobi.py`)

A database state is the list of stored documents in ascending `id`
(insertion) order; SQLite scans `documents` in that order for every query
the engine issues. -/

/-- Database state of the flat store. -/
abbrev DB := List Json

/-- Python's `isinstance(document, dict)` on a decoded JSON value. -/
def Json.isDict : Json → Bool
  | .obj _ => true
  | _ => false

/-- `KenobiDB.insert`: rejects a non-dict, appends the document. -/
def insert (db : DB) (document : Json) : Except String DB :=
  if document.isDict then .ok (db ++ [document])
  else .error "Must insert a dict"

/-- Text of the query built by `KenobiDB.search` (an f-string: the key is
concatenated into the statement). -/
def searchQueryText (key : String) : String :=
  "SELECT data FROM documents WHERE json_extract(data, '$." ++ key ++ "') = ?"

/-- `KenobiDB.search`: rows whose field `key` SQL-equals the bound value. -/
def search (db : DB) (key : String) (value : Json) : List Json :=
  db.filter (fun d => extractEq d key value)

/-- Text of the DELETE built by `KenobiDB.remove` (an f-string). -/
def removeQueryText (key : String) : String :=
  "DELETE FROM documents WHERE json_extract(data, '$." ++ key ++ "') = ?"

/-- Field name the SELECT inside `KenobiDB.remove` actually uses: the
string literal in the source is NOT an f-string, so the path text is
literally `$.` followed by an open brace, `key`, and a close brace. -/
def removeSelectField : String := "\x7bkey\x7d"

/-- Text of the SELECT issued by `KenobiDB.remove` (no f-string prefix in
the source, hence independent of the `key` argument). -/
def removeSelectText : String :=
  "SELECT data FROM documents WHERE json_extract(data, '$." ++ removeSelectField ++ "') = ?"

/-- `KenobiDB.remove`: captures the rows matched by the (non-interpolated)
SELECT path, then deletes the rows matched by the real DELETE query.
Returns (new state, returned `removed_items`). -/
def remove (db : DB) (key : String) (value : Json) : DB × List Json :=
  let removed_items := db.filter (fun d => extractEq d removeSelectField value)
  (db.filter (fun d => !extractEq d key value), removed_items)

/-- Python `dict` assignment `fields[k] = v` as performed field-by-field by
`dict.update`: overwrite in place when the key exists, append otherwise. -/
def setField (fields : List (String × Json)) (k : String) (v : Json) : List (String × Json) :=
  if fields.any (fun kv => kv.1 == k) then
    fields.map (fun kv => if kv.1 == k then (k, v) else kv)
  else fields ++ [(k, v)]

/-- Python `document.update(new_dict)` on ordered dicts. -/
def dictUpdate (fields patch : List (String × Json)) : List (String × Json) :=
  patch.foldl (fun acc kv => setField acc kv.1 kv.2) fields

/-- Merge a patch into a document (documents are always objects once
inserted; a non-object is returned unchanged). -/
def mergeDoc (d : Json) (patch : List (String × Json)) : Json :=
  match d with
  | .obj fields => .obj (dictUpdate fields patch)
  | other => other

/-- One execution of the UPDATE statement
`UPDATE documents SET data = ? WHERE json_extract(data, '$.' ++ key) = ?`:
every row currently matching the key/value predicate is overwritten with
the serialized merged document. -/
def updateStep (key : String) (value : Json) (merged : Json) (db : DB) : DB :=
  db.map (fun d => if extractEq d key value then merged else d)

/-- `KenobiDB.update` (flat store): fetch the matching rows once, then for
each fetched row run the UPDATE statement with that row's merged document;
always returns `True`. -/
def update (db : DB) (id_key : String) (id_value : Json) (new_dict : List (String × Json)) : DB × Bool :=
  let matched := db.filter (fun d => extractEq d id_key id_value)
  (matched.foldl (fun acc d => updateStep id_key id_value (mergeDoc d new_dict) acc) db, true)

/-- Return values observed across the engine variants: the flat store's
boolean results and the collection variant's row counts. -/
inductive Ret where
  | bool : Bool → Ret
  | count : Nat → Ret
  deriving DecidableEq

/-- `KenobiDB.purge` (flat store): `DELETE FROM documents`, returns `True`. -/
def purge (_db : DB) : DB × Ret := ([], Ret.bool true)

/-- `KenobiDB.find_any`: one placeholder per operand, a join with
`json_each` over the field, `SELECT DISTINCT` over the serialized
document (deduplication by stored text, i.e. by structural equality). -/
def find_any (db : DB) (key : String) (value_list : List Json) : List Json :=
  (db.filter (fun d => (jsonEachAt d key).any (fun x => sqlIn x value_list))).dedup

/-- `KenobiDB.find_all`: a document matches when
`COUNT(DISTINCT value)` over its `json_each` rows that lie in the operand
list equals `len(value_list)` (the full length, duplicates included). -/
def find_all (db : DB) (key : String) (value_list : List Json) : List Json :=
  db.filter (fun d =>
    ((jsonEachAt d key).filter (fun x => sqlIn x value_list)).dedup.length == value_list.length)

/-! ## The collection-tagged variant (`.features_sandbox/col.py`)

Rows carry a `collection` label; every operation filters on it.  Here the
user-supplied key is bound as a parameter inside the path-construction
expression `'$.' || ?`, so the statement text never depends on the key. -/

namespace Col

/-- Database state of the collection variant: rows `(collection, data)` in
ascending `id` (insertion) order. -/
abbrev DB := List (String × Json)

/-- `KenobiDB.insert` (collection variant): validates the document is a
dict and the collection name a non-empty string, then appends. -/
def insert (db : DB) (document : Json) (collection : String) : Except String DB :=
  if document.isDict then
    if collection = "" then .error "Collection must be a non-empty string"
    else .ok (db ++ [(collection, document)])
  else .error "Must insert a dict"

/-- `KenobiDB.insert_many` (collection variant): all elements are
validated before any write; the batch is appended in input order. -/
def insert_many (db : DB) (document_list : List Json) (collection : String) : Except String DB :=
  if document_list.all Json.isDict then
    if collection = "" then .error "Collection must be a non-empty string"
    else .ok (db ++ document_list.map (fun d => (collection, d)))
  else .error "Must insert a list of dicts"

/-- Text of the query built by the collection variant's `search`: a plain
string constant, the key travels only as the parameter bound to the `?`
inside `'$.' || ?`. -/
def searchQueryText (_key : String) : String :=
  "SELECT data FROM documents WHERE json_extract(data, '$.' || ?) = ? AND collection = ? LIMIT ? OFFSET ?"

/-- Text of the DELETE built by the collection variant's `remove`: also a
constant, with the key bound inside `'$.' || ?`. -/
def removeQueryText (_key : String) : String :=
  "DELETE FROM documents WHERE json_extract(data, '$.' || ?) = ? AND collection = ?"

/-- `KenobiDB.search` (collection variant): validates key and collection,
then filters by the bound-path predicate, with LIMIT/OFFSET pagination. -/
def search (db : DB) (key : String) (value : Json) (collection : String) (limit offset : Nat) : Except String (List Json) :=
  if key = "" then .error "Key must be a non-empty string"
  else if collection = "" then .error "Collection must be a non-empty string"
  else .ok ((((db.filter (fun r => r.1 == collection && Kenobi.extractEq r.2 key value)).map
      (fun r => r.2)).drop offset).take limit)

/-- `KenobiDB.all` (collection variant):
`SELECT data FROM documents WHERE collection = ? LIMIT ? OFFSET ?`, rows
scanned in ascending `id` order. -/
def all (db : DB) (collection : String) (limit offset : Nat) : Except String (List Json) :=
  if collection = "" then .error "Collection must be a non-empty string"
  else .ok ((((db.filter (fun r => r.1 == collection)).map (fun r => r.2)).drop offset).take limit)

/-- `KenobiDB.all` invoked with its default arguments `limit=100`,
`offset=0`. -/
def all_default (db : DB) (collection : String) : Except String (List Json) :=
  all db collection 100 0

/-- `KenobiDB.remove_collection`: `DELETE FROM documents WHERE
collection = ?`, returning the statement's rowcount. -/
def remove_collection (db : DB) (collection : String) : Except String (DB × Kenobi.Ret) :=
  if collection = "" then .error "Collection must be a non-empty string"
  else .ok (db.filter (fun r => !(r.1 == collection)),
            Kenobi.Ret.count (db.countP (fun r => r.1 == collection)))

end Col

/-! ## The named-table variant (`.features_sandbox/tables.py`)

`KenobiDB.table(name)` validates only that `name` is a non-empty string,
then `KenobiTable._create_table` interpolates it into a CREATE TABLE
statement; `rename` likewise.  `KenobiTable.update` returns whether any
document matched. -/

namespace Tables

/-- Acceptance test of `KenobiDB.table` on a string argument: the source
raises only for an empty (or non-string) name. -/
def table_accepts (name : String) : Bool := name != ""

/-- Acceptance test of `KenobiTable.rename` on a string argument. -/
def rename_accepts (new_name : String) : Bool := new_name != ""

/-- Text of the statement `KenobiTable._create_table` executes (an
f-string interpolating the table name; whitespace normalized to one
line). -/
def createTableText (name : String) : String :=
  "CREATE TABLE IF NOT EXISTS " ++ name ++
    " (id INTEGER PRIMARY KEY AUTOINCREMENT, data TEXT NOT NULL)"

/-- Characters of the strict allow-pattern the spec prescribes for
partition identifiers: letters, digits, underscore. -/
def isIdentChar (c : Char) : Bool := c.isAlpha || c.isDigit || c == '_'

/-- Modelled from the spec: the strict allow-pattern for table/collection
identifiers (letters, digits and underscores only); the sandbox sources
under `src/` contain no such validation, this definition names the
pattern the claim asks about. -/
def allowPattern (name : String) : Bool :=
  name != "" && name.toList.all isIdentChar

/-- `KenobiTable.update`: validates the patch is a dict (enforced here by
the type), the key a non-empty string and the value not `None`; fetches
matching rows, returns `False` when none matched, otherwise re-runs the
re-matching UPDATE per fetched row (skipping non-dict rows) and returns
`True`. -/
def update (db : Kenobi.DB) (id_key : String) (id_value : Kenobi.Json) (new_dict : List (String × Kenobi.Json)) : Except String (Kenobi.DB × Bool) :=
  if id_key = "" then .error "id_key must be a non-empty string"
  else if id_value = Kenobi.Json.null then .error "id_value cannot be None"
  else
    let documents := db.filter (fun d => Kenobi.extractEq d id_key id_value)
    if documents.isEmpty then .ok (db, false)
    else .ok (documents.foldl (fun acc d =>
        match d with
        | .obj _ => Kenobi.updateStep id_key id_value (Kenobi.mergeDoc d new_dict) acc
        | _ => acc) db, true)

end Tables

/-- Ten distinct documents, used to exercise pagination. -/
def tenDocs : List Json := (List.range 10).map (fun i => Json.obj [("i", Json.num i)])

/-! ## Helper lemmas -/

/-- Characterization of SQL equality between decoded values. -/
theorem sqlEq_eq_true_iff {x v : Json} :
    sqlEq x v = true ↔ x ≠ Json.null ∧ v ≠ Json.null ∧ x = v := by
  cases x <;> cases v <;> simp [sqlEq]

/-- Characterization of the SQL `IN` test. -/
theorem sqlIn_eq_true_iff {x : Json} {vs : List Json} :
    sqlIn x vs = true ↔ x ≠ Json.null ∧ x ∈ vs := by
  simp only [sqlIn, List.any_eq_true]
  constructor
  · rintro ⟨v, hv, hx⟩
    rcases sqlEq_eq_true_iff.mp hx with ⟨hxn, -, hxv⟩
    exact ⟨hxn, hxv ▸ hv⟩
  · rintro ⟨hxn, hv⟩
    exact ⟨x, hv, sqlEq_eq_true_iff.mpr ⟨hxn, hxn, rfl⟩⟩

/-- Selecting the rows of a single collection out of rows inserted into
that collection returns the inserted documents unchanged. -/
theorem filter_tagged_rows (docs : List Json) (c : String) :
    ((docs.map (fun d => (c, d))).filter (fun r => r.1 == c)).map (fun r => r.2) = docs := by
  induction docs with
  | nil => rfl
  | cons d ds ih => simpa using ih

/-- A filtered list is empty exactly when no element passes the test. -/
theorem filter_isEmpty_eq_not_any (l : List Json) (p : Json → Bool) :
    (l.filter p).isEmpty = !l.any p := by
  induction l with
  | nil => rfl
  | cons a l ih =>
      by_cases h : p a = true
      · simp [List.filter_cons, h]
      · simp only [Bool.not_eq_true] at h
        simp [List.filter_cons, h, ih]

/-- The set of distinct row values that pass the `IN` test is contained
in the set of operands. -/
theorem matched_values_subset (xs vs : List Json) :
    (xs.filter (fun x => sqlIn x vs)).toFinset ⊆ vs.toFinset := by
  intro a ha
  rw [List.mem_toFinset, List.mem_filter] at ha
  rw [List.mem_toFinset]
  exact (sqlIn_eq_true_iff.mp ha.2).2

/-- `COUNT(DISTINCT value)` over the rows that pass the `IN` test equals
the full operand count exactly when every operand occurs among the rows,
provided the operand list has no duplicates. -/
theorem count_distinct_matches_iff (xs vs : List Json) (hnd : vs.Nodup) :
    (((xs.filter (fun x => sqlIn x vs)).dedup.length == vs.length) = true)
      ↔ ∀ v ∈ vs, ∃ x ∈ xs, sqlEq x v = true := by
  rw [beq_iff_eq, ← List.card_toFinset]
  have hvslen : vs.toFinset.card = vs.length := List.toFinset_card_of_nodup hnd
  have hsub := matched_values_subset xs vs
  by_cases hnull : Json.null ∈ vs
  · constructor
    · intro hlen
      exfalso
      have hsub' : (xs.filter (fun x => sqlIn x vs)).toFinset
          ⊆ vs.toFinset.erase Json.null := by
        intro a ha
        rw [Finset.mem_erase]
        refine ⟨?_, hsub ha⟩
        rw [List.mem_toFinset, List.mem_filter] at ha
        exact (sqlIn_eq_true_iff.mp ha.2).1
      have h1 := Finset.card_le_card hsub'
      have h2 : (vs.toFinset.erase Json.null).card = vs.toFinset.card - 1 :=
        Finset.card_erase_of_mem (List.mem_toFinset.mpr hnull)
      have h4 : 1 ≤ vs.length := List.length_pos.mpr (List.ne_nil_of_mem hnull)
      omega
    · intro hall
      exfalso
      rcases hall Json.null hnull with ⟨x, -, hxeq⟩
      exact (sqlEq_eq_true_iff.mp hxeq).2.1 rfl
  · constructor
    · intro hlen
      have heq : (xs.filter (fun x => sqlIn x vs)).toFinset = vs.toFinset :=
        Finset.eq_of_subset_of_card_le hsub (by omega)
      intro v hv
      have hvA : v ∈ (xs.filter (fun x => sqlIn x vs)).toFinset :=
        heq ▸ List.mem_toFinset.mpr hv
      rw [List.mem_toFinset, List.mem_filter] at hvA
      have hvn := (sqlIn_eq_true_iff.mp hvA.2).1
      exact ⟨v, hvA.1, sqlEq_eq_true_iff.mpr ⟨hvn, hvn, rfl⟩⟩
    · intro hall
      have hsup : vs.toFinset ⊆ (xs.filter (fun x => sqlIn x vs)).toFinset := by
        intro v hv
        rw [List.mem_toFinset] at hv
        rcases hall v hv with ⟨x, hx, hxeq⟩
        rcases sqlEq_eq_true_iff.mp hxeq with ⟨hxn, -, rfl⟩
        rw [List.mem_toFinset, List.mem_filter]
        exact ⟨hx, sqlIn_eq_true_iff.mpr ⟨hxn, hv⟩⟩
      rw [Finset.Subset.antisymm hsub hsup, hvslen]

/-- With a duplicate among the operands, `COUNT(DISTINCT value)` can never
reach the full operand count. -/
theorem count_distinct_short_of_dups (xs vs : List Json) (hnd : ¬ vs.Nodup) :
    (((xs.filter (fun x => sqlIn x vs)).dedup.length == vs.length) = true) → False := by
  intro hlen
  rw [beq_iff_eq, ← List.card_toFinset] at hlen
  have hsub := Finset.card_le_card (matched_values_subset xs vs)
  have hdlen : vs.toFinset.card = vs.dedup.length := List.card_toFinset vs
  have hle : vs.dedup.length ≤ vs.length := (List.dedup_sublist vs).length_le
  have hne : vs.dedup.length ≠ vs.length := by
    intro h
    exact hnd (List.dedup_eq_self.mp ((List.dedup_sublist vs).eq_of_length h))
  omega

/-! ## Claims -/

/-- C1 (counterexample): the claim says the SQL query text submitted to
the backing store is the same for any two key arguments; in the flat
store `KenobiDB.search` builds its query with an f-string, so the texts
for keys `"a"` and `"b"` differ. -/
theorem search_query_text_depends_on_key :
    searchQueryText "a" ≠ searchQueryText "b" := by decide

/-- C1 (amended): in the collection variant the query text is identical
for any two keys (the key is bound inside `'$.' || ?`); in the flat
variant the key is concatenated into the text, but the value operand is
always bound as a parameter, so after inserting `{"key":"value"}`,
`search("key", "value OR 1=1")` returns the empty list in both
variants. -/
theorem value_always_bound_key_binding_varies :
    (∀ k₁ k₂ : String, Col.searchQueryText k₁ = Col.searchQueryText k₂) ∧
    (∀ k₁ k₂ : String, Col.removeQueryText k₁ = Col.removeQueryText k₂) ∧
    insert [] (Json.obj [("key", Json.str "value")])
      = .ok [Json.obj [("key", Json.str "value")]] ∧
    search [Json.obj [("key", Json.str "value")]] "key" (Json.str "value OR 1=1") = [] ∧
    Col.search [("default", Json.obj [("key", Json.str "value")])] "key"
      (Json.str "value OR 1=1") "default" 100 0 = .ok [] := by
  refine ⟨fun _ _ => rfl, fun _ _ => rfl, rfl, by decide, rfl⟩

/-- C2 (code bug): on the store `[{"a": 1}]`, `remove("a", 1)` deletes the
matching document but returns the empty list — the SELECT that should
capture the removed documents is missing the f-string prefix, so it
filters on the literal field name `removeSelectField` and its query text
does not mention the key argument at all.  The repository's own test
(`test_kenobi.py::test_remove`) expects the removed documents back. -/
theorem remove_deletes_but_returns_empty :
    remove [Json.obj [("a", Json.num 1)]] "a" (Json.num 1) = ([], []) ∧
    removeSelectText
      = "SELECT data FROM documents WHERE json_extract(data, '$.\x7bkey\x7d') = ?" := by
  exact ⟨by decide, rfl⟩

/-- C5 (confirmed): `find_any` with an empty operand list builds an empty
`IN ()` list — legal in SQLite and always false — and returns the empty
list on every database state. -/
theorem find_any_empty_operand_list (db : DB) (key : String) :
    find_any db key [] = [] := by
  have h : ∀ d ∈ db, ((jsonEachAt d key).any (fun x => sqlIn x [])) ≠ true := by
    intro d _ hd
    rcases List.any_eq_true.mp hd with ⟨x, -, hx⟩
    rcases sqlIn_eq_true_iff.mp hx with ⟨-, hmem⟩
    exact absurd hmem (List.not_mem_nil x)
  simp only [find_any]
  rw [List.filter_eq_nil_iff.mpr (fun d hd => h d hd)]
  rfl

/-- C10 (confirmed): the list `find_any` returns has no two structurally
equal (deep-equal) documents — `SELECT DISTINCT` over the serialized
document deduplicates — and a document appears in it exactly when it is
stored and some row of `json_each` over its field lies in the operand
list, no matter how many elements match. -/
theorem find_any_returns_each_match_once (db : DB) (key : String) (vs : List Json) :
    (find_any db key vs).Nodup ∧
    ∀ d, d ∈ find_any db key vs ↔
      d ∈ db ∧ ((jsonEachAt d key).any (fun x => sqlIn x vs)) = true := by
  refine ⟨List.nodup_dedup _, fun d => ?_⟩
  rw [find_any, List.mem_dedup, List.mem_filter]

/-- C6 (counterexample): the claim says every identifier the table
constructor (or rename) accepts consists only of letters, digits and
underscores; the name `"[weird name]"` is accepted by both (the source
only rejects an empty or non-string name, and SQLite parses the
bracket-quoted identifier without error) yet fails the allow-pattern. -/
theorem table_accepts_non_identifier :
    Tables.table_accepts "[weird name]" = true ∧
    Tables.rename_accepts "[weird name]" = true ∧
    Tables.allowPattern "[weird name]" = false := by decide

/-- C6 (amended): the table constructor and `rename` validate only that
the identifier is a non-empty string; any non-empty name — whatever
characters it contains — is passed on and interpolated verbatim into the
partition-qualified CREATE TABLE statement. -/
theorem table_name_validated_only_for_nonempty (name : String) :
    (Tables.table_accepts name = true ↔ name ≠ "") ∧
    (Tables.rename_accepts name = true ↔ name ≠ "") ∧
    Tables.createTableText name
      = "CREATE TABLE IF NOT EXISTS " ++ name
        ++ " (id INTEGER PRIMARY KEY AUTOINCREMENT, data TEXT NOT NULL)" := by
  refine ⟨?_, ?_, rfl⟩ <;> simp [Tables.table_accepts, Tables.rename_accepts]

/-- C7 (code bug): with a single matching document the merge behaves as
claimed, but with the two matching documents `{"id":1,"a":"x"}` and
`{"id":1,"a":"z"}` the patch `{"b":"y"}` persists BOTH rows as
`{"id":1,"a":"z","b":"y"}` — each per-row UPDATE re-matches every row
with `id = 1`, so the last match's merge clobbers the first document's
own field `a`. -/
theorem update_merge_clobbers_on_multimatch :
    (update [Json.obj [("id", Json.num 1), ("a", Json.str "x")]]
        "id" (Json.num 1) [("b", Json.str "y")]).1
      = [Json.obj [("id", Json.num 1), ("a", Json.str "x"), ("b", Json.str "y")]] ∧
    (update [Json.obj [("id", Json.num 1), ("a", Json.str "x")],
             Json.obj [("id", Json.num 1), ("a", Json.str "z")]]
        "id" (Json.num 1) [("b", Json.str "y")]).1
      = [Json.obj [("id", Json.num 1), ("a", Json.str "z"), ("b", Json.str "y")],
         Json.obj [("id", Json.num 1), ("a", Json.str "z"), ("b", Json.str "y")]] := by
  decide

/-- C9 (counterexample): the claim says an application of `purge` to an
already-empty store reports zero documents removed; the flat store's
`purge` returns `True`, which is not a zero count. -/
theorem purge_reports_true_not_zero :
    purge ([] : DB) = ([], Ret.bool true) ∧ Ret.bool true ≠ Ret.count 0 := by decide

/-- C9 (amended): `purge` and `remove_collection` are idempotent on the
stored state — `purge` always empties the whole store and returns `True`
(it reports no count), while `remove_collection` applied right after
itself, or to a partition holding no documents, is a no-op reporting zero
documents removed. -/
theorem purge_remove_collection_idempotent (db : DB) (cdb : Col.DB) (c : String)
    (hc : c ≠ "") :
    (purge db).1 = [] ∧
    purge (purge db).1 = purge db ∧
    (purge db).2 = Ret.bool true ∧
    (∃ n, Col.remove_collection cdb c
        = .ok (cdb.filter (fun r => !(r.1 == c)), Ret.count n) ∧
      Col.remove_collection (cdb.filter (fun r => !(r.1 == c))) c
        = .ok (cdb.filter (fun r => !(r.1 == c)), Ret.count 0)) ∧
    ((∀ r ∈ cdb, r.1 ≠ c) →
      Col.remove_collection cdb c = .ok (cdb, Ret.count 0)) := by
  refine ⟨rfl, rfl, rfl, ?_, ?_⟩
  · refine ⟨cdb.countP (fun r => r.1 == c), ?_, ?_⟩
    · simp [Col.remove_collection, hc]
    · have hfilter : (cdb.filter (fun r => !(r.1 == c))).filter (fun r => !(r.1 == c))
          = cdb.filter (fun r => !(r.1 == c)) := by
        rw [List.filter_filter]
        exact List.filter_congr (fun a _ => by cases h : a.1 == c <;> simp [h])
      have hcount : (cdb.filter (fun r => !(r.1 == c))).countP (fun r => r.1 == c) = 0 := by
        rw [List.countP_eq_zero]
        intro a ha
        have := List.of_mem_filter ha
        simpa using this
      simp [Col.remove_collection, hc, hfilter, hcount]
  · intro hnone
    have hfilter : cdb.filter (fun r => !(r.1 == c)) = cdb := by
      rw [List.filter_eq_self]
      intro a ha
      simpa using hnone a ha
    have hcount : cdb.countP (fun r => r.1 == c) = 0 := by
      rw [List.countP_eq_zero]
      intro a ha
      simpa using hnone a ha
    simp [Col.remove_collection, hc, hfilter, hcount]

/-- C9 (witness): the amended idempotence theorem applied to the concrete
store `[{"x": null}]` tagged under collection `"keep"`, purging the flat
store and removing the nonexistent collection `"gone"`. -/
theorem purge_remove_collection_idempotent_witness :
    ("gone" ≠ "") ∧
    ((purge [Json.obj [("x", Json.null)]]).1 = [] ∧
     purge (purge [Json.obj [("x", Json.null)]]).1 = purge [Json.obj [("x", Json.null)]] ∧
     (purge [Json.obj [("x", Json.null)]]).2 = Ret.bool true ∧
     (∃ n, Col.remove_collection [("keep", Json.obj [])] "gone"
         = .ok (([("keep", Json.obj [])] : Col.DB).filter (fun r => !(r.1 == "gone")), Ret.count n) ∧
       Col.remove_collection (([("keep", Json.obj [])] : Col.DB).filter (fun r => !(r.1 == "gone"))) "gone"
         = .ok (([("keep", Json.obj [])] : Col.DB).filter (fun r => !(r.1 == "gone")), Ret.count 0)) ∧
     ((∀ r ∈ ([("keep", Json.obj [])] : Col.DB), r.1 ≠ "gone") →
       Col.remove_collection [("keep", Json.obj [])] "gone"
         = .ok ([("keep", Json.obj [])], Ret.count 0))) :=
  ⟨by decide, purge_remove_collection_idempotent [Json.obj [("x", Json.null)]]
      [("keep", Json.obj [])] "gone" (by decide)⟩

/-- C3 (counterexample): the claim says `update` returns `False` when
zero documents match; the flat store's `update` on the empty store — where
nothing can match — returns `True`. -/
theorem update_returns_true_on_zero_matches :
    update ([] : DB) "id" (Json.num 1) [] = ([], true) := by decide

/-- C3 (amended): the table-variant `update` returns `True` exactly when
at least one document matched the key/value selection and returns `False`
without error when zero documents match; the flat-variant `update`
returns `True` unconditionally, matched or not. -/
theorem update_matched_flag (db : DB) (id_key : String) (id_value : Json)
    (new_dict : List (String × Json)) (hk : id_key ≠ "") (hv : id_value ≠ Json.null) :
    (∃ db', Tables.update db id_key id_value new_dict
        = .ok (db', db.any (fun d => extractEq d id_key id_value))) ∧
    (update db id_key id_value new_dict).2 = true := by
  refine ⟨?_, rfl⟩
  simp only [Tables.update, if_neg hk, if_neg hv]
  rw [filter_isEmpty_eq_not_any]
  cases h : db.any (fun d => extractEq d id_key id_value)
  · exact ⟨db, by simp⟩
  · simp only [Bool.not_true, Bool.false_eq_true, if_false]
    exact ⟨_, rfl⟩

/-- C3 (witness): the amended theorem applied to the one-document store
`[{"id": 1}]` with the matching selection `("id", 1)` and an empty
patch. -/
theorem update_matched_flag_witness :
    ("id" ≠ "") ∧ (Json.num 1 ≠ Json.null) ∧
    ((∃ db', Tables.update [Json.obj [("id", Json.num 1)]] "id" (Json.num 1) []
        = .ok (db', ([Json.obj [("id", Json.num 1)]] : DB).any
            (fun d => extractEq d "id" (Json.num 1)))) ∧
     (update [Json.obj [("id", Json.num 1)]] "id" (Json.num 1) []).2 = true) :=
  ⟨by decide, by decide,
    update_matched_flag [Json.obj [("id", Json.num 1)]] "id" (Json.num 1) []
      (by decide) (by decide)⟩

/-- C8 (confirmed): inserting ten documents into a partition of an empty
store, `all(limit=5, offset=0)` returns exactly the first five in
insertion order, `all(limit=5, offset=5)` returns the remaining five,
the two windows partition the ten documents with no overlap, and `all`
with its default arguments (`limit=100`, `offset=0`) returns all ten in
insertion order. -/
theorem all_pagination (docs : List Json) (c : String) (h10 : docs.length = 10)
    (hdict : docs.all Json.isDict = true) (hc : c ≠ "") :
    ∃ db, Col.insert_many [] docs c = .ok db ∧
      Col.all db c 5 0 = .ok (docs.take 5) ∧
      Col.all db c 5 5 = .ok (docs.drop 5) ∧
      (docs.take 5).length = 5 ∧ (docs.drop 5).length = 5 ∧
      docs.take 5 ++ docs.drop 5 = docs ∧
      Col.all_default db c = .ok docs := by
  have hsel := filter_tagged_rows docs c
  refine ⟨docs.map (fun d => (c, d)), ?_, ?_, ?_, ?_, ?_, ?_, ?_⟩
  · simp [Col.insert_many, hdict, hc]
  · simp [Col.all, hc, hsel]
  · have hlen : (docs.drop 5).length ≤ 5 := by
      rw [List.length_drop, h10]
    simp [Col.all, hc, hsel, List.take_of_length_le hlen]
  · simp [h10]
  · simp [h10]
  · exact List.take_append_drop 5 docs
  · have hlen : docs.length ≤ 100 := by omega
    simp [Col.all_default, Col.all, hc, hsel, List.take_of_length_le hlen]

/-- C8 (witness): the pagination theorem applied to the ten concrete
documents `{"i": 0} … {"i": 9}` inserted into collection `"default"`. -/
theorem all_pagination_witness :
    tenDocs.length = 10 ∧ tenDocs.all Json.isDict = true ∧ ("default" ≠ "") ∧
    (∃ db, Col.insert_many [] tenDocs "default" = .ok db ∧
      Col.all db "default" 5 0 = .ok (tenDocs.take 5) ∧
      Col.all db "default" 5 5 = .ok (tenDocs.drop 5) ∧
      (tenDocs.take 5).length = 5 ∧ (tenDocs.drop 5).length = 5 ∧
      tenDocs.take 5 ++ tenDocs.drop 5 = tenDocs ∧
      Col.all_default db "default" = .ok tenDocs) :=
  ⟨by decide, by decide, by decide,
    all_pagination tenDocs "default" (by decide) (by decide) (by decide)⟩

/-- C4 (counterexample): the claim says duplicates in the operand list do
not change `find_all`'s result; on the store `[{"tags":["a","b"]}]` the
operand list `["a","a"]` returns nothing while its deduplication `["a"]`
returns the document, because the distinct-match count is compared against
`len(value_list)` with duplicates included. -/
theorem find_all_changed_by_duplicates :
    find_all [Json.obj [("tags", Json.arr [Json.str "a", Json.str "b"])]] "tags"
        [Json.str "a", Json.str "a"] = [] ∧
    find_all [Json.obj [("tags", Json.arr [Json.str "a", Json.str "b"])]] "tags"
        ([Json.str "a", Json.str "a"].dedup)
      = [Json.obj [("tags", Json.arr [Json.str "a", Json.str "b"])]] := by decide

/-- C4 (amended): for a duplicate-free non-empty operand list, `find_all`
returns exactly the stored documents whose `json_each` rows over the
field contain every operand; when the operand list contains a duplicate,
no document can reach the required distinct-match count and `find_all`
returns the empty list (so deduplicating the operands generally changes
the result). -/
theorem find_all_requires_duplicate_free_operands (db : DB) (key : String)
    (vs : List Json) (_hne : vs ≠ []) :
    (vs.Nodup → ∀ d, d ∈ find_all db key vs ↔
        d ∈ db ∧ ∀ v ∈ vs, ∃ x ∈ jsonEachAt d key, sqlEq x v = true) ∧
    (¬ vs.Nodup → find_all db key vs = []) := by
  constructor
  · intro hnd d
    rw [find_all, List.mem_filter]
    exact and_congr_right (fun _ => count_distinct_matches_iff _ _ hnd)
  · intro hnd
    rw [find_all, List.filter_eq_nil_iff]
    intro d _
    intro hd
    exact count_distinct_short_of_dups _ _ hnd hd

/-- C4 (witness): the amended theorem applied to the store
`[{"tags":["a","b"]}]` with key `"tags"` and the duplicate-free operand
list `["a"]`. -/
theorem find_all_requires_duplicate_free_operands_witness :
    ([Json.str "a"] ≠ ([] : List Json)) ∧
    ((([Json.str "a"] : List Json).Nodup → ∀ d,
        d ∈ find_all [Json.obj [("tags", Json.arr [Json.str "a", Json.str "b"])]]
            "tags" [Json.str "a"] ↔
          d ∈ [Json.obj [("tags", Json.arr [Json.str "a", Json.str "b"])]] ∧
          ∀ v ∈ [Json.str "a"], ∃ x ∈ jsonEachAt d "tags", sqlEq x v = true) ∧
     (¬ ([Json.str "a"] : List Json).Nodup →
       find_all [Json.obj [("tags", Json.arr [Json.str "a", Json.str "b"])]]
           "tags" [Json.str "a"] = [])) :=
  ⟨by decide,
    find_all_requires_duplicate_free_operands
      [Json.obj [("tags", Json.arr [Json.str "a", Json.str "b"])]] "tags"
      [Json.str "a"] (by decide)⟩

end Kenobi
